import Mathlib

/-!
Verification of the discussion-topics collection module
(`lms/static/js/discussion_topics/collections/topics.js`).

The source file binds `edx.discussions.DiscussionTopicsCollection` to a
Backbone collection class whose model constructor is
`edx.discussions.DiscussionTopicModel`.  Two layers are embedded here:

* the abstract `TopicCollection` contract (ordered, identifier-keyed
  membership container) whose operational behaviour lives in the Backbone
  framework code shipped by the repository outside `src/`; it is modelled
  from the specification's contract, and

* the module's own top-level evaluation effect on the shared `edx`
  namespace, embedded directly from the source file.
-/

namespace DiscussionTopics

/-- Raw topic data: an open key-value record as supplied by the upstream
producer, containing at minimum an identifier field keyed `id`. -/
abbrev RawItem := List (String × String)

/-- A discussion topic record: a unique identifier together with the open
set of topic fields. -/
structure TopicRecord where
  id : String
  fields : List (String × String)
deriving DecidableEq

/-- The identifier field of a raw topic item, when present. -/
def getRawId (raw : RawItem) : Option String :=
  (raw.find? (fun kv => kv.1 == "id")).map (fun kv => kv.2)

/-- Modelled from the spec: the external record constructor
(`DiscussionTopicModel`, whose code is not under `src/`) validates and
normalizes one raw topic item into a `TopicRecord`, failing when the
required identifier is missing. -/
def makeRecord (raw : RawItem) : Option TopicRecord :=
  (getRawId raw).map (fun i => ⟨i, raw⟩)

/-- Error taxonomy of the collection contract. -/
inductive CollError where
  | invalidRecord
  | duplicateIdentifier
deriving DecidableEq

/-- Modelled from the spec: the ordered, identifier-indexed in-memory
container of topic records (`DiscussionTopicsCollection`; the membership
behaviour is inherited from the Backbone framework, not under `src/`). -/
structure TopicCollection where
  records : List TopicRecord
deriving DecidableEq

/-- The empty collection. -/
def TopicCollection.empty : TopicCollection := ⟨[]⟩

/-- Read-only view of the records in insertion order. -/
def TopicCollection.all (c : TopicCollection) : List TopicRecord := c.records

/-- Count of contained records. -/
def TopicCollection.size (c : TopicCollection) : Nat := c.records.length

/-- Lookup by identifier. -/
def TopicCollection.get (c : TopicCollection) (i : String) : Option TopicRecord :=
  c.records.find? (fun r => r.id == i)

/-- The identifiers held by the collection, in insertion order. -/
def TopicCollection.ids (c : TopicCollection) : List String :=
  c.records.map TopicRecord.id

/-- An argument to `add`: raw topic data or an already-built record. -/
abbrev Item := Sum RawItem TopicRecord

/-- Converts an `add` argument to a record if necessary. -/
def itemRecord : Item → Option TopicRecord
  | Sum.inl raw => makeRecord raw
  | Sum.inr r => some r

/-- Modelled from the spec: `add` converts if necessary, rejects a
duplicate identifier with `DuplicateIdentifierError`, and otherwise
appends the record at the end of the ordered sequence, returning the
stored record. -/
def TopicCollection.add (c : TopicCollection) (item : Item) :
    Except CollError (TopicRecord × TopicCollection) :=
  match itemRecord item with
  | none => Except.error CollError.invalidRecord
  | some r =>
    if (c.get r.id).isSome then Except.error CollError.duplicateIdentifier
    else Except.ok (r, ⟨c.records ++ [r]⟩)

/-- Modelled from the spec: `remove` deletes the matching record if
present and reports whether removal occurred; it is a no-op returning
`false` on an absent identifier. -/
def TopicCollection.remove (c : TopicCollection) (i : String) :
    Bool × TopicCollection :=
  if (c.get i).isSome then (true, ⟨c.records.filter (fun r => r.id != i)⟩)
  else (false, c)

/-- Converts an initial sequence of raw items, failing when any item
cannot be converted. -/
def convertAll : List RawItem → Option (List TopicRecord)
  | [] => some []
  | raw :: rest =>
    match makeRecord raw, convertAll rest with
    | some r, some rs => some (r :: rs)
    | _, _ => none

/-- Executable duplicate check on a list of identifiers. -/
def dupFree : List String → Bool
  | [] => true
  | x :: xs => !(xs.contains x) && dupFree xs

/-- Modelled from the spec: `create` builds a collection from an initial
ordered sequence of raw topic data, failing with `InvalidRecordError` if
any item cannot be converted, and rejecting identifier collisions so the
uniqueness invariant holds from birth. -/
def TopicCollection.create (items : List RawItem) :
    Except CollError TopicCollection :=
  match convertAll items with
  | none => Except.error CollError.invalidRecord
  | some recs =>
    if dupFree (recs.map TopicRecord.id) then Except.ok ⟨recs⟩
    else Except.error CollError.duplicateIdentifier

/-- The reachable collection states: those produced by a `create` and any
sequence of `add` / `remove` operations after it. -/
inductive Reachable : TopicCollection → Prop where
  | created (items : List RawItem) (c : TopicCollection) :
      TopicCollection.create items = Except.ok c → Reachable c
  | added (c : TopicCollection) (item : Item) (r : TopicRecord)
      (c' : TopicCollection) : Reachable c →
      c.add item = Except.ok (r, c') → Reachable c'
  | removed (c : TopicCollection) (i : String) (b : Bool)
      (c' : TopicCollection) : Reachable c →
      c.remove i = (b, c') → Reachable c'

/-- Sample raw item with identifier `t1`. -/
def rawA : RawItem := [("id", "t1"), ("title", "A")]

/-- Sample raw item with identifier `t2`. -/
def rawB : RawItem := [("id", "t2"), ("title", "B")]

/-- Sample raw item duplicating identifier `t1`. -/
def rawDup : RawItem := [("id", "t1"), ("title", "dup")]

/-- Sample raw item with no identifier field. -/
def rawNoId : RawItem := [("title", "A")]

/-- The record the constructor builds from `rawA`. -/
def recA : TopicRecord := ⟨"t1", rawA⟩

/-- A one-record sample collection. -/
def cOne : TopicCollection := ⟨[recA]⟩

end DiscussionTopics

namespace TopicsModule

/-- Identity of a model constructor value (e.g. `DiscussionTopicModel`). -/
abbrev ModelRef := Nat

/-- An opaque property value held on the shared namespace objects. -/
abbrev PropVal := Nat

/-- The class produced by `Backbone.Collection.extend({model: topicModel})`:
it carries the model constructor it was built with. -/
structure CollectionClass where
  model : Option ModelRef
deriving DecidableEq

/-- The `edx.discussions` namespace object. -/
structure DiscussionsObj where
  DiscussionTopicModel : Option ModelRef
  DiscussionTopicsCollection : Option CollectionClass
  otherProps : List (String × PropVal)
deriving DecidableEq

/-- The global `edx` object. -/
structure EdxObj where
  discussions : Option DiscussionsObj
  otherProps : List (String × PropVal)
deriving DecidableEq

/-- The global state the module touches. -/
structure Global where
  edx : Option EdxObj
deriving DecidableEq

/-- Errors the module evaluation can throw. -/
inductive JsError where
  | typeError
deriving DecidableEq

/-- Result of evaluating the module: the final global state and the
thrown error, if any. -/
structure EvalResult where
  state : Global
  error : Option JsError
deriving DecidableEq

/-- Shallow embedding of evaluating `topics.js` top to bottom:
line 1 runs `var edx = edx || \x7b\x7d`; then the IIFE call evaluates its
argument `edx.discussions.DiscussionTopicModel`, which throws a
`TypeError` when `edx.discussions` is undefined; otherwise the body keeps
the existing `edx.discussions` object (the `||` is a no-op on a truthy
object) and assigns `edx.discussions.DiscussionTopicsCollection` to the
class extending `Backbone.Collection` with the captured model. -/
def evalModule (g : Global) : EvalResult :=
  let e := g.edx.getD ⟨none, []⟩
  match e.discussions with
  | none => ⟨⟨some e⟩, some JsError.typeError⟩
  | some d =>
    let topicModel := d.DiscussionTopicModel
    let d' := { d with DiscussionTopicsCollection := some ⟨topicModel⟩ }
    ⟨⟨some { e with discussions := some d' }⟩, none⟩

/-- Reassignment of the global `edx.discussions.DiscussionTopicModel`
after module evaluation. -/
def setDiscussionTopicModel (g : Global) (m : Option ModelRef) : Global :=
  match g.edx with
  | none => g
  | some e =>
    match e.discussions with
    | none => g
    | some d => ⟨some { e with discussions := some { d with DiscussionTopicModel := m } }⟩

/-- The collection class currently installed on `edx.discussions`, if the
path exists. -/
def installedCollection (g : Global) : Option CollectionClass :=
  match g.edx with
  | none => none
  | some e =>
    match e.discussions with
    | none => none
    | some d => d.DiscussionTopicsCollection

end TopicsModule

namespace DiscussionTopics

theorem get_eq_none_iff (c : TopicCollection) (i : String) :
    c.get i = none ↔ ∀ r ∈ c.records, r.id ≠ i := by
  simp [TopicCollection.get, List.find?_eq_none]

theorem remove_eq_of_get_none (c : TopicCollection) (i : String)
    (h : c.get i = none) : c.remove i = (false, c) := by
  simp [TopicCollection.remove, h]

theorem get_remove_self (c : TopicCollection) (i : String) :
    ((c.remove i).2).get i = none := by
  unfold TopicCollection.remove
  split
  · rw [TopicCollection.get, List.find?_eq_none]
    intro x hx
    simp only [List.mem_filter] at hx
    simpa using hx.2
  · next h => exact Option.not_isSome_iff_eq_none.mp h

theorem dupFree_iff (l : List String) : dupFree l = true ↔ l.Nodup := by
  induction l with
  | nil => simp [dupFree]
  | cons x xs ih =>
    simp [dupFree, List.nodup_cons, ih, List.contains, List.elem_iff]

theorem convertAll_eq_some (items : List RawItem)
    (h : ∀ raw ∈ items, (getRawId raw).isSome = true) :
    convertAll items = some (items.filterMap makeRecord) := by
  induction items with
  | nil => rfl
  | cons raw rest ih =>
    obtain ⟨i, hi⟩ := Option.isSome_iff_exists.mp (h raw (by simp))
    have hrest := ih (fun x hx => h x (by simp [hx]))
    simp [convertAll, makeRecord, hi, hrest, List.filterMap_cons]

theorem map_id_filterMap (items : List RawItem) :
    (items.filterMap makeRecord).map TopicRecord.id = items.filterMap getRawId := by
  induction items with
  | nil => rfl
  | cons raw rest ih =>
    cases hi : getRawId raw with
    | none => simp [makeRecord, hi, List.filterMap_cons, ih]
    | some i => simp [makeRecord, hi, List.filterMap_cons, ih]

theorem length_filterMap_makeRecord (items : List RawItem)
    (h : ∀ raw ∈ items, (getRawId raw).isSome = true) :
    (items.filterMap makeRecord).length = items.length := by
  induction items with
  | nil => rfl
  | cons raw rest ih =>
    obtain ⟨i, hi⟩ := Option.isSome_iff_exists.mp (h raw (by simp))
    simp [makeRecord, hi, List.filterMap_cons,
      ih (fun x hx => h x (by simp [hx]))]

theorem convertAll_eq_none (items : List RawItem)
    (h : ∃ raw ∈ items, makeRecord raw = none) :
    convertAll items = none := by
  induction items with
  | nil => simp at h
  | cons raw rest ih =>
    obtain ⟨x, hx, hnone⟩ := h
    rcases List.mem_cons.mp hx with rfl | hmem
    · simp [convertAll, hnone]
    · cases hr : makeRecord raw <;>
        simp [convertAll, hr, ih ⟨x, hmem, hnone⟩]

end DiscussionTopics

namespace DiscussionTopics

/-- Claim C1: for every reachable state of a TopicCollection (any sequence
of create/add/remove operations), no two records held in the collection
have the same identifier. -/
theorem claim_C1_unique_identifiers (c : TopicCollection)
    (h : Reachable c) : c.ids.Nodup := by
  induction h with
  | created items c hc =>
    unfold TopicCollection.create at hc
    split at hc
    · simp at hc
    · split at hc
      · next hdf =>
        injection hc with hc2
        subst hc2
        exact (dupFree_iff _).mp hdf
      · simp at hc
  | added c item r c' hr hadd ih =>
    unfold TopicCollection.add at hadd
    split at hadd
    · simp at hadd
    · next r0 hit =>
      split at hadd
      · simp at hadd
      · next hg =>
        injection hadd with h2
        injection h2 with h3 h4
        subst h3
        subst h4
        have hnone : c.get r0.id = none := Option.not_isSome_iff_eq_none.mp hg
        show ((c.records ++ [r0]).map TopicRecord.id).Nodup
        rw [List.map_append, List.nodup_append]
        refine ⟨ih, by simp, ?_⟩
        intro a ha hb
        simp only [List.map_cons, List.map_nil, List.mem_singleton] at hb
        subst hb
        obtain ⟨rr, hrr, hid⟩ := List.mem_map.mp ha
        exact ((get_eq_none_iff c r0.id).mp hnone rr hrr) hid
  | removed c i b c' hr hrem ih =>
    unfold TopicCollection.remove at hrem
    split at hrem
    · injection hrem with h1 h2
      subst h2
      exact (List.Sublist.map TopicRecord.id (List.filter_sublist _)).nodup ih
    · injection hrem with h1 h2
      subst h2
      exact ih

/-- Witness for C1 at a concrete reachable collection. -/
theorem claim_C1_witness : cOne.ids.Nodup :=
  claim_C1_unique_identifiers cOne (Reachable.created [rawA] cOne rfl)

/-- Claim C2: for every sequence of raw topic items whose identifiers are
pairwise distinct, constructing a collection from that sequence yields
size equal to the length of the sequence, and all returns the records in
the same order as the input sequence. -/
theorem claim_C2_create_order (items : List RawItem)
    (h1 : ∀ raw ∈ items, (getRawId raw).isSome = true)
    (h2 : (items.filterMap getRawId).Nodup) :
    ∃ c, TopicCollection.create items = Except.ok c ∧
      c.size = items.length ∧ c.all = items.filterMap makeRecord := by
  refine ⟨⟨items.filterMap makeRecord⟩, ?_, ?_, rfl⟩
  · have hdf : dupFree ((items.filterMap makeRecord).map TopicRecord.id) = true := by
      rw [map_id_filterMap]
      exact (dupFree_iff _).mpr h2
    simp [TopicCollection.create, convertAll_eq_some items h1, hdf]
  · exact length_filterMap_makeRecord items h1

/-- Witness for C2 at a concrete two-item sequence. -/
theorem claim_C2_witness :
    ∃ c, TopicCollection.create [rawA, rawB] = Except.ok c ∧
      c.size = [rawA, rawB].length ∧
      c.all = [rawA, rawB].filterMap makeRecord :=
  claim_C2_create_order [rawA, rawB] (by decide) (by decide)

/-- Claim C3: for every record r and every collection state in which the
identifier of r is not already present, immediately after add r succeeds,
get at that identifier returns exactly the stored record r. -/
theorem claim_C3_add_get (c : TopicCollection) (r : TopicRecord)
    (h : c.get r.id = none) :
    ∃ c', c.add (Sum.inr r) = Except.ok (r, c') ∧ c'.get r.id = some r := by
  refine ⟨⟨c.records ++ [r]⟩, ?_, ?_⟩
  · simp [TopicCollection.add, itemRecord, h]
  · simp only [TopicCollection.get] at h ⊢
    rw [List.find?_append, h]
    simp

/-- Witness for C3 on the empty collection. -/
theorem claim_C3_witness :
    ∃ c', TopicCollection.empty.add (Sum.inr recA) = Except.ok (recA, c') ∧
      c'.get recA.id = some recA :=
  claim_C3_add_get TopicCollection.empty recA rfl

/-- Claim C4: for every collection state and every identifier not present
in the collection, remove returns false and the size and membership are
unchanged by the call. -/
theorem claim_C4_remove_absent (c : TopicCollection) (i : String)
    (h : c.get i = none) :
    c.remove i = (false, c) ∧ ((c.remove i).2).size = c.size := by
  have he := remove_eq_of_get_none c i h
  exact ⟨he, by rw [he]⟩

/-- Witness for C4 at an absent identifier. -/
theorem claim_C4_witness :
    cOne.remove "t9" = (false, cOne) ∧
      ((cOne.remove "t9").2).size = cOne.size :=
  claim_C4_remove_absent cOne "t9" rfl

/-- Claim C5: for every collection state and every identifier present in
the collection, remove returns true, and immediately afterwards get at
that identifier is absent. -/
theorem claim_C5_remove_present (c : TopicCollection) (i : String)
    (h : (c.get i).isSome = true) :
    (c.remove i).1 = true ∧ ((c.remove i).2).get i = none := by
  refine ⟨?_, get_remove_self c i⟩
  simp [TopicCollection.remove, h]

/-- Witness for C5 at a present identifier. -/
theorem claim_C5_witness :
    (cOne.remove "t1").1 = true ∧ ((cOne.remove "t1").2).get "t1" = none :=
  claim_C5_remove_present cOne "t1" rfl

/-- Claim C6: for every collection state and every identifier, calling
remove twice in immediate succession yields false on the second call. -/
theorem claim_C6_remove_idempotent (c : TopicCollection) (i : String) :
    (((c.remove i).2).remove i).1 = false := by
  rw [remove_eq_of_get_none _ _ (get_remove_self c i)]

/-- Claim C7: for every collection state and every item whose identifier
is not already present, add converts the item to a record if it is raw
data, appends the resulting record at the end of the ordered sequence
leaving all existing positions unchanged, and returns the stored
record. -/
theorem claim_C7_add_appends (c : TopicCollection) (item : Item)
    (r : TopicRecord) (h1 : itemRecord item = some r)
    (h2 : c.get r.id = none) :
    c.add item = Except.ok (r, ⟨c.records ++ [r]⟩) := by
  simp [TopicCollection.add, h1, h2]

/-- Witness for C7: adding raw data to the empty collection. -/
theorem claim_C7_witness :
    TopicCollection.empty.add (Sum.inl rawA) =
      Except.ok (recA, ⟨TopicCollection.empty.records ++ [recA]⟩) :=
  claim_C7_add_appends TopicCollection.empty (Sum.inl rawA) recA rfl rfl

/-- Claim C8: for every collection that already contains a record with a
given identifier, calling add with an item bearing that same identifier
fails with DuplicateIdentifierError rather than overwriting or creating a
second entry. -/
theorem claim_C8_add_duplicate (c : TopicCollection) (item : Item)
    (r : TopicRecord) (h1 : itemRecord item = some r)
    (h2 : (c.get r.id).isSome = true) :
    c.add item = Except.error CollError.duplicateIdentifier := by
  simp [TopicCollection.add, h1, h2]

/-- Witness for C8: adding a duplicate of `t1`. -/
theorem claim_C8_witness :
    cOne.add (Sum.inl rawDup) = Except.error CollError.duplicateIdentifier :=
  claim_C8_add_duplicate cOne (Sum.inl rawDup) ⟨"t1", rawDup⟩ rfl rfl

/-- Claim C9: for every initial sequence of raw topic items containing at
least one item that the record constructor cannot convert, create fails
with InvalidRecordError, the error surfacing synchronously to the
immediate caller as the return value. -/
theorem claim_C9_create_invalid (items : List RawItem)
    (h : ∃ raw ∈ items, makeRecord raw = none) :
    TopicCollection.create items = Except.error CollError.invalidRecord := by
  have hc := convertAll_eq_none items h
  simp [TopicCollection.create, hc]

/-- Witness for C9: a sequence with one identifier-less item. -/
theorem claim_C9_witness :
    TopicCollection.create [rawNoId] = Except.error CollError.invalidRecord :=
  claim_C9_create_invalid [rawNoId] (by decide)

end DiscussionTopics

namespace TopicsModule

/-- Claim C10 counterexample: starting from a global state in which `edx`
is absent, evaluating the module throws a TypeError while evaluating the
IIFE argument, leaves `edx.discussions` unset, and installs no
DiscussionTopicsCollection — it does not fill in the absent objects and
add the property as the claim states. -/
theorem claim_C10_counterexample :
    (evalModule ⟨none⟩).error = some JsError.typeError ∧
      installedCollection (evalModule ⟨none⟩).state = none ∧
      ((evalModule ⟨none⟩).state.edx.getD ⟨none, []⟩).discussions = none :=
  ⟨rfl, rfl, rfl⟩

/-- Claim C10 (amended): when `edx.discussions` is a present object at
evaluation time, evaluating the module throws no error, preserves every
pre-existing property of the global `edx` object and of `edx.discussions`
(including `DiscussionTopicModel`), and adds or overwrites exactly the
single property `DiscussionTopicsCollection`, whose model constructor is
captured by value from `edx.discussions.DiscussionTopicModel` at
evaluation time, so a later reassignment of that global does not change
which constructor the installed collection class uses; when `edx` or
`edx.discussions` is absent, evaluation instead throws a TypeError
(after filling an absent `edx` with an empty object) and installs
nothing. -/
theorem claim_C10_module_frame (g : Global) (e : EdxObj)
    (d : DiscussionsObj) (h1 : g.edx = some e)
    (h2 : e.discussions = some d) :
    evalModule g =
      ⟨⟨some ⟨some ⟨d.DiscussionTopicModel, some ⟨d.DiscussionTopicModel⟩,
        d.otherProps⟩, e.otherProps⟩⟩, none⟩ ∧
      ∀ m, installedCollection
        (setDiscussionTopicModel (evalModule g).state m) =
          some ⟨d.DiscussionTopicModel⟩ := by
  have he : evalModule g =
      ⟨⟨some ⟨some ⟨d.DiscussionTopicModel, some ⟨d.DiscussionTopicModel⟩,
        d.otherProps⟩, e.otherProps⟩⟩, none⟩ := by
    simp [evalModule, h1, h2]
  refine ⟨he, ?_⟩
  intro m
  rw [he]
  rfl

/-- Witness for the amended C10 at a concrete populated global state. -/
theorem claim_C10_witness :
    evalModule ⟨some ⟨some ⟨some 5, none, [("x", 1)]⟩, [("y", 2)]⟩⟩ =
      ⟨⟨some ⟨some ⟨some 5, some ⟨some 5⟩, [("x", 1)]⟩, [("y", 2)]⟩⟩, none⟩ ∧
      installedCollection (setDiscussionTopicModel
        (evalModule ⟨some ⟨some ⟨some 5, none, [("x", 1)]⟩, [("y", 2)]⟩⟩).state
        (some 9)) = some ⟨some 5⟩ :=
  ⟨(claim_C10_module_frame _ _ _ rfl rfl).1,
   (claim_C10_module_frame _ _ _ rfl rfl).2 (some 9)⟩

end TopicsModule
